import Mathlib

/-!
Verification of the weblate statistics caching/aggregation engine
(`weblate/utils/stats.py`), shallowly embedded in Lean 4.

Persisted stats records are modelled as association lists from metric
names (strings) to values; the leaf computation, the hierarchical
aggregation, the lazy attribute dispatch, the percent derivation and the
parent-update propagation are translated from the source file.
-/

namespace WeblateStats

/-- A value stored in a stats record: an integer (counts, word/char sums,
author ids, timestamps) or the Python `None`. -/
inductive SVal where
  | int : Int → SVal
  | null : SVal
  deriving DecidableEq, Repr

/-- A stats record: a mapping from metric name to value, modelling the
Python dict `self._data` (insertion ordered, unique keys once built). -/
abbrev StatsData := List (String × SVal)

/-- Python `s.startswith(p)` (character-wise). -/
def strStartsWith (s p : String) : Bool := p.data.isPrefixOf s.data

/-- Python `s.endswith(p)` (character-wise). -/
def strEndsWith (s p : String) : Bool := p.data.isSuffixOf s.data

/-- Python `item[:-8]`, used by `calculate_percent` to strip the
`_percent` suffix. -/
def stripPercent (s : String) : String := String.mk (s.data.take (s.data.length - 8))

/-- Dict lookup (first matching key; keys are unique in built records). -/
def dictGet : StatsData → String → Option SVal
  | [], _ => none
  | (k, v) :: rest, key => if k = key then some v else dictGet rest key

/-- Dict assignment: replace the value at an existing key in place,
otherwise append, as a Python dict does. -/
def dictSet : StatsData → String → SVal → StatsData
  | [], key, v => [(key, v)]
  | (k, w) :: rest, key, v =>
      if k = key then (k, v) :: rest else (k, w) :: dictSet rest key v

/-- The value actually written by `BaseStats.store`: `None` becomes `0`
unless the key starts with `last_`. -/
def storeVal (key : String) (v : SVal) : SVal :=
  if v = SVal.null ∧ strStartsWith key "last_" = false then SVal.int 0 else v

/-- `BaseStats.store(key, value)`. -/
def store (d : StatsData) (key : String) (v : SVal) : StatsData :=
  dictSet d key (storeVal key v)

/-- Repeated `store` over a stream of key/value pairs (the
`for key, value in stats.items(): self.store(key, value)` loops). -/
def storeList (d : StatsData) (kvs : List (String × SVal)) : StatsData :=
  kvs.foldl (fun acc kv => store acc kv.1 kv.2) d

/-- Value of the last pair carrying a given key, used to reason about
`storeList` (last write wins). -/
def lookupLast : List (String × SVal) → String → Option SVal
  | [], _ => none
  | (k, v) :: rest, key =>
      match lookupLast rest key with
      | some w => some w
      | none => if k = key then some v else none

/-- `BASICS` from the source: the named partitions measured three ways. -/
def BASICS : List String :=
  ["all", "fuzzy", "todo", "readonly", "nottranslated", "translated", "approved",
   "allchecks", "translated_checks", "dismissed_checks", "suggestions",
   "nosuggestions", "comments", "approved_suggestions", "unlabeled", "unapproved"]

/-- `BASIC_KEYS` from the source. -/
def BASIC_KEYS : List String :=
  BASICS.map (fun x => x ++ "_words") ++ BASICS.map (fun x => x ++ "_chars") ++ BASICS ++
    ["languages", "last_changed", "last_author",
     "recent_changes", "monthly_changes", "total_changes"]

/-- `SOURCE_KEYS` from the source. -/
def SOURCE_KEYS : List String :=
  BASIC_KEYS ++ ["source_strings", "source_words", "source_chars"]

/-- A child stats object as seen by the aggregation loop: attribute reads
(`getattr(stats_obj, item)`) resolve to integers, plus the specially
handled `last_changed`, `last_author` and `stats_timestamp` attributes. -/
structure ChildStats where
  vals : String → Int
  lastChanged : Option Int
  lastAuthor : Option Int
  statsTimestamp : Int

/-- The in-progress `stats` dict of `AggregatingStats._calculate_basic`
(`zero_stats` shape): integer slots for all aggregated keys and the
specially typed `last_changed`, `last_author`, `stats_timestamp` slots. -/
structure AggAcc where
  nums : String → Int
  lastChanged : Option Int
  lastAuthor : Option Int
  statsTimestamp : Int

/-- Pointwise function update for the integer slots. -/
def updF (f : String → Int) (k : String) (v : Int) : String → Int :=
  fun j => if j = k then v else f j

/-- The module-level `aggregate(stats, item, stats_obj)` function. -/
def aggregate (acc : AggAcc) (item : String) (c : ChildStats) : AggAcc :=
  if item = "stats_timestamp" then
    { acc with statsTimestamp := max acc.statsTimestamp c.statsTimestamp }
  else if item = "last_changed" then
    match c.lastChanged with
    | none => acc
    | some t =>
      match acc.lastChanged with
      | none => { acc with lastChanged := some t, lastAuthor := c.lastAuthor }
      | some l =>
          if l < t then { acc with lastChanged := some t, lastAuthor := c.lastAuthor }
          else acc
  else if item = "last_author" then acc
  else { acc with nums := updF acc.nums item (acc.nums item + c.vals item) }

/-- Which `calculate_source` implementation a composite node uses:
`AggregatingStats` (sum the child's `all*` values), `ParentAggregatingStats`
(aggregate the child's `source_*` values), or `ComponentStats` (no-op,
resolved later by `prefetch_source`). -/
inductive SourceMode where
  | genericSum
  | parentAgg
  | componentNoop
  deriving DecidableEq, Repr

/-- The `calculate_source(stats_obj, stats)` step for one child. -/
def calcSource (mode : SourceMode) (acc : AggAcc) (c : ChildStats) : AggAcc :=
  match mode with
  | SourceMode.genericSum =>
      let a1 := { acc with nums := updF acc.nums "source_chars" (acc.nums "source_chars" + c.vals "all_chars") }
      let a2 := { a1 with nums := updF a1.nums "source_words" (a1.nums "source_words" + c.vals "all_words") }
      { a2 with nums := updF a2.nums "source_strings" (a2.nums "source_strings" + c.vals "all") }
  | SourceMode.parentAgg =>
      aggregate (aggregate (aggregate acc "source_chars" c) "source_words" c) "source_strings" c
  | SourceMode.componentNoop => acc

/-- `zero_stats(keys)` as it constrains the structured accumulator. -/
def zeroAcc : AggAcc :=
  { nums := fun _ => 0, lastChanged := none, lastAuthor := none, statsTimestamp := 0 }

/-- One `object_set` iteration of `AggregatingStats._calculate_basic`:
aggregate every `BASIC_KEYS` item, then run `calculate_source`. -/
def aggChild (mode : SourceMode) (acc : AggAcc) (c : ChildStats) : AggAcc :=
  calcSource mode (BASIC_KEYS.foldl (fun a i => aggregate a i c) acc) c

/-- One `category_set` iteration: aggregate every `self.basic_keys`
(`SOURCE_KEYS`) item. -/
def aggCat (acc : AggAcc) (c : ChildStats) : AggAcc :=
  SOURCE_KEYS.foldl (fun a i => aggregate a i c) acc

/-- The accumulator after both loops of `_calculate_basic`. -/
def aggStats (mode : SourceMode) (objs cats : List ChildStats) : AggAcc :=
  cats.foldl aggCat (objs.foldl (aggChild mode) zeroAcc)

/-- The value the `stats` dict holds for a key after the loops. -/
def accVal (acc : AggAcc) (k : String) : SVal :=
  if k = "last_changed" then
    match acc.lastChanged with
    | some t => SVal.int t
    | none => SVal.null
  else if k = "last_author" then
    match acc.lastAuthor with
    | some a => SVal.int a
    | none => SVal.null
  else SVal.int (acc.nums k)

/-- The `stats.items()` stream written back by the store loop: the
`zero_stats` keys in `basic_keys` order followed by `stats_timestamp`. -/
def accKVs (keys : List String) (acc : AggAcc) : List (String × SVal) :=
  keys.map (fun k => (k, accVal acc k)) ++ [("stats_timestamp", SVal.int acc.statsTimestamp)]

/-- `AggregatingStats._calculate_basic` up to and including its store
loop (before `prefetch_source` and the timestamp store). -/
def coreCalcBasic (mode : SourceMode) (objs cats : List ChildStats) : StatsData :=
  storeList [] (accKVs SOURCE_KEYS (aggStats mode objs cats))

/-- `calculate_basic` of a plain aggregating node: `_calculate_basic`
followed by `store("stats_timestamp", monotonic())`. -/
def aggCalculate (mode : SourceMode) (objs cats : List ChildStats) (now : Int) : StatsData :=
  store (coreCalcBasic mode objs cats) "stats_timestamp" (SVal.int now)

/-- `ComponentStats.prefetch_source`: copy `all/all_words/all_chars` of
the single source translation, or store zeros when it is absent. -/
def prefetchSource (d : StatsData) (srcT : Option ChildStats) : StatsData :=
  match srcT with
  | none =>
      store (store (store d "source_chars" (SVal.int 0))
        "source_words" (SVal.int 0)) "source_strings" (SVal.int 0)
  | some c =>
      store (store (store d "source_chars" (SVal.int (c.vals "all_chars")))
        "source_words" (SVal.int (c.vals "all_words"))) "source_strings" (SVal.int (c.vals "all"))

/-- `calculate_basic` of a Component node: the aggregation with no-op
`calculate_source`, then `prefetch_source`, then the timestamp store. -/
def componentCalculate (objs : List ChildStats) (srcT : Option ChildStats) (now : Int) : StatsData :=
  store (prefetchSource (coreCalcBasic SourceMode.componentNoop objs []) srcT)
    "stats_timestamp" (SVal.int now)

/-- `calculate_basic` of a Category or ComponentList node
(`ParentAggregatingStats`). -/
def parentAggCalculate (objs cats : List ChildStats) (now : Int) : StatsData :=
  aggCalculate SourceMode.parentAgg objs cats now

/-- `calculate_basic` of a Project node: the parent aggregation, then
`store("languages", ...)` with the distinct language count, then the
timestamp store. `distinctLanguages` models `self._object.languages.count()`
(a distinct count over descendants, per the spec; the query itself lives
outside this file's source). -/
def projectCalculate (objs cats : List ChildStats) (distinctLanguages : Int) (now : Int) : StatsData :=
  store (store (coreCalcBasic SourceMode.parentAgg objs cats)
    "languages" (SVal.int distinctLanguages)) "stats_timestamp" (SVal.int now)

/-- `calculate_basic` of the Global node: the parent aggregation over all
projects, then `store("languages", ...)` with the distinct count of
languages having a translation (`Language.objects.have_translation().count()`,
a query outside this file's source, per the spec a distinct count), then
the timestamp store. -/
def globalCalculate (objs : List ChildStats) (languagesWithTranslation : Int) (now : Int) : StatsData :=
  store (store (coreCalcBasic SourceMode.parentAgg objs [])
    "languages" (SVal.int languagesWithTranslation)) "stats_timestamp" (SVal.int now)

/-- One step of taking the most recent `last_changed` timestamp. -/
def maxStep (m : Option Int) (c : ChildStats) : Option Int :=
  match c.lastChanged with
  | none => m
  | some t =>
      match m with
      | none => some t
      | some l => some (max l t)

/-- The most recent `last_changed` among a list of children. -/
def maxLast (cs : List ChildStats) : Option Int :=
  cs.foldl maxStep none

/-- The `last_changed`/`last_author` merge performed by `aggregate` for
the `last_changed` item, on the pair of slots. -/
def mergeLast (p : Option Int × Option Int) (c : ChildStats) : Option Int × Option Int :=
  match c.lastChanged with
  | none => p
  | some t =>
      match p.1 with
      | none => (some t, c.lastAuthor)
      | some l => if l < t then (some t, c.lastAuthor) else p

/-- Modelled from the spec: the translation state constants of
`weblate.utils.state` (module not under the provided source). The spec
fixes the ordering empty < fuzzy < translated < approved; `STATE_READONLY`
must be a further value of the same `state` field because the source
filters with `state=STATE_READONLY`, and it sits above `STATE_APPROVED`
(readonly strings count as translated, matching the spec note that
readonly overlaps translated). -/
def STATE_EMPTY : Nat := 0

/-- Modelled from the spec: see `STATE_EMPTY`. -/
def STATE_FUZZY : Nat := 10

/-- Modelled from the spec: see `STATE_EMPTY`. -/
def STATE_TRANSLATED : Nat := 20

/-- Modelled from the spec: see `STATE_EMPTY`. -/
def STATE_APPROVED : Nat := 30

/-- Modelled from the spec: see `STATE_EMPTY`. -/
def STATE_READONLY : Nat := 100

/-- A unit row as seen by `TranslationStats._calculate_basic`: the
ordered state plus the per-unit annotated counts the query computes. -/
structure TUnit where
  state : Nat
  numWords : Nat
  srcLen : Nat
  activeChecks : Nat
  dismissedChecks : Nat
  suggestionCount : Nat
  commentCount : Nat
  unlabeled : Bool
  deriving DecidableEq, Repr

/-- Modelled from the spec: `conditional_sum` of `weblate.utils.db` (not
under the provided source) is a SQL `SUM(CASE WHEN cond THEN value ELSE 0)`:
over an empty row set the aggregate is NULL (`None`), otherwise the sum of
`value` over the rows satisfying the condition. -/
def condSum (us : List TUnit) (value : TUnit → Int) (p : TUnit → Bool) : Option Int :=
  match us with
  | [] => none
  | _ => some (((us.filter p).map value).sum)

/-- A plain SQL `SUM(value)`: NULL over an empty row set. -/
def plainSum (us : List TUnit) (value : TUnit → Int) : Option Int :=
  match us with
  | [] => none
  | _ => some ((us.map value).sum)

/-- Lift an optional aggregate into a stored value. -/
def optInt : Option Int → SVal
  | some n => SVal.int n
  | none => SVal.null

/-- The items of the big `aggregate(...)` query of
`TranslationStats._calculate_basic`, in keyword order. -/
def leafAggPairs (us : List TUnit) : List (String × SVal) :=
  [("all", SVal.int us.length),
   ("all_words", optInt (plainSum us (fun u => (u.numWords : Int)))),
   ("all_chars", optInt (plainSum us (fun u => (u.srcLen : Int)))),
   ("fuzzy", optInt (condSum us (fun _ => 1) (fun u => decide (u.state = STATE_FUZZY)))),
   ("fuzzy_words", optInt (condSum us (fun u => (u.numWords : Int)) (fun u => decide (u.state = STATE_FUZZY)))),
   ("fuzzy_chars", optInt (condSum us (fun u => (u.srcLen : Int)) (fun u => decide (u.state = STATE_FUZZY)))),
   ("readonly", optInt (condSum us (fun _ => 1) (fun u => decide (u.state = STATE_READONLY)))),
   ("readonly_words", optInt (condSum us (fun u => (u.numWords : Int)) (fun u => decide (u.state = STATE_READONLY)))),
   ("readonly_chars", optInt (condSum us (fun u => (u.srcLen : Int)) (fun u => decide (u.state = STATE_READONLY)))),
   ("translated", optInt (condSum us (fun _ => 1) (fun u => decide (STATE_TRANSLATED ≤ u.state)))),
   ("translated_words", optInt (condSum us (fun u => (u.numWords : Int)) (fun u => decide (STATE_TRANSLATED ≤ u.state)))),
   ("translated_chars", optInt (condSum us (fun u => (u.srcLen : Int)) (fun u => decide (STATE_TRANSLATED ≤ u.state)))),
   ("todo", optInt (condSum us (fun _ => 1) (fun u => decide (u.state < STATE_TRANSLATED)))),
   ("todo_words", optInt (condSum us (fun u => (u.numWords : Int)) (fun u => decide (u.state < STATE_TRANSLATED)))),
   ("todo_chars", optInt (condSum us (fun u => (u.srcLen : Int)) (fun u => decide (u.state < STATE_TRANSLATED)))),
   ("nottranslated", optInt (condSum us (fun _ => 1) (fun u => decide (u.state = STATE_EMPTY)))),
   ("nottranslated_words", optInt (condSum us (fun u => (u.numWords : Int)) (fun u => decide (u.state = STATE_EMPTY)))),
   ("nottranslated_chars", optInt (condSum us (fun u => (u.srcLen : Int)) (fun u => decide (u.state = STATE_EMPTY)))),
   ("approved", optInt (condSum us (fun _ => 1) (fun u => decide (u.state = STATE_APPROVED)))),
   ("approved_words", optInt (condSum us (fun u => (u.numWords : Int)) (fun u => decide (u.state = STATE_APPROVED)))),
   ("approved_chars", optInt (condSum us (fun u => (u.srcLen : Int)) (fun u => decide (u.state = STATE_APPROVED)))),
   ("unapproved", optInt (condSum us (fun _ => 1) (fun u => decide (u.state = STATE_TRANSLATED)))),
   ("unapproved_words", optInt (condSum us (fun u => (u.numWords : Int)) (fun u => decide (u.state = STATE_TRANSLATED)))),
   ("unapproved_chars", optInt (condSum us (fun u => (u.srcLen : Int)) (fun u => decide (u.state = STATE_TRANSLATED)))),
   ("unlabeled", optInt (condSum us (fun _ => 1) (fun u => u.unlabeled))),
   ("unlabeled_words", optInt (condSum us (fun u => (u.numWords : Int)) (fun u => u.unlabeled))),
   ("unlabeled_chars", optInt (condSum us (fun u => (u.srcLen : Int)) (fun u => u.unlabeled))),
   ("allchecks", optInt (condSum us (fun _ => 1) (fun u => decide (0 < u.activeChecks)))),
   ("allchecks_words", optInt (condSum us (fun u => (u.numWords : Int)) (fun u => decide (0 < u.activeChecks)))),
   ("allchecks_chars", optInt (condSum us (fun u => (u.srcLen : Int)) (fun u => decide (0 < u.activeChecks)))),
   ("translated_checks", optInt (condSum us (fun _ => 1) (fun u => decide (u.state = STATE_TRANSLATED ∧ 0 < u.activeChecks)))),
   ("translated_checks_words", optInt (condSum us (fun u => (u.numWords : Int)) (fun u => decide (u.state = STATE_TRANSLATED ∧ 0 < u.activeChecks)))),
   ("translated_checks_chars", optInt (condSum us (fun u => (u.srcLen : Int)) (fun u => decide (u.state = STATE_TRANSLATED ∧ 0 < u.activeChecks)))),
   ("dismissed_checks", optInt (condSum us (fun _ => 1) (fun u => decide (0 < u.dismissedChecks)))),
   ("dismissed_checks_words", optInt (condSum us (fun u => (u.numWords : Int)) (fun u => decide (0 < u.dismissedChecks)))),
   ("dismissed_checks_chars", optInt (condSum us (fun u => (u.srcLen : Int)) (fun u => decide (0 < u.dismissedChecks)))),
   ("suggestions", optInt (condSum us (fun _ => 1) (fun u => decide (0 < u.suggestionCount)))),
   ("suggestions_words", optInt (condSum us (fun u => (u.numWords : Int)) (fun u => decide (0 < u.suggestionCount)))),
   ("suggestions_chars", optInt (condSum us (fun u => (u.srcLen : Int)) (fun u => decide (0 < u.suggestionCount)))),
   ("nosuggestions", optInt (condSum us (fun _ => 1) (fun u => decide (u.state < STATE_TRANSLATED ∧ u.suggestionCount = 0)))),
   ("nosuggestions_words", optInt (condSum us (fun u => (u.numWords : Int)) (fun u => decide (u.state < STATE_TRANSLATED ∧ u.suggestionCount = 0)))),
   ("nosuggestions_chars", optInt (condSum us (fun u => (u.srcLen : Int)) (fun u => decide (u.state < STATE_TRANSLATED ∧ u.suggestionCount = 0)))),
   ("approved_suggestions", optInt (condSum us (fun _ => 1) (fun u => decide (STATE_APPROVED ≤ u.state ∧ 0 < u.suggestionCount)))),
   ("approved_suggestions_words", optInt (condSum us (fun u => (u.numWords : Int)) (fun u => decide (STATE_APPROVED ≤ u.state ∧ 0 < u.suggestionCount)))),
   ("approved_suggestions_chars", optInt (condSum us (fun u => (u.srcLen : Int)) (fun u => decide (STATE_APPROVED ≤ u.state ∧ 0 < u.suggestionCount)))),
   ("comments", optInt (condSum us (fun _ => 1) (fun u => decide (0 < u.commentCount)))),
   ("comments_words", optInt (condSum us (fun u => (u.numWords : Int)) (fun u => decide (0 < u.commentCount)))),
   ("comments_chars", optInt (condSum us (fun u => (u.srcLen : Int)) (fun u => decide (0 < u.commentCount))))]

/-- External inputs of the leaf computation: the resolved most recent
change (timestamp and author), and the change-activity aggregate counts
(total, recent, monthly) queried when a last change exists. -/
structure LeafEnv where
  lastChange : Option (Int × Int)
  totalChanges : Int
  recentChanges : Int
  monthlyChanges : Int
  deriving DecidableEq, Repr

/-- `TranslationStats.fetch_last_change`. -/
def fetchLastChange (d : StatsData) (lc : Option (Int × Int)) : StatsData :=
  match lc with
  | none => store (store d "last_changed" SVal.null) "last_author" SVal.null
  | some ta => store (store d "last_changed" (SVal.int ta.1)) "last_author" (SVal.int ta.2)

/-- Python truthiness of the `last_changed` slot: a datetime is always
truthy, `None` is falsy. -/
def svalTruthy : Option SVal → Bool
  | some (SVal.int _) => true
  | _ => false

/-- `TranslationStats.count_changes`. -/
def countChanges (d : StatsData) (env : LeafEnv) : StatsData :=
  if svalTruthy (dictGet d "last_changed") then
    store (store (store d "recent_changes" (SVal.int env.recentChanges))
      "monthly_changes" (SVal.int env.monthlyChanges)) "total_changes" (SVal.int env.totalChanges)
  else
    store (store (store d "recent_changes" (SVal.int 0))
      "monthly_changes" (SVal.int 0)) "total_changes" (SVal.int 0)

/-- `TranslationStats._calculate_basic`: the aggregate query stored key
by key, then `languages = 1`, then last-change resolution, then
change-activity counts. -/
def leafCalculateBasic (us : List TUnit) (env : LeafEnv) (d0 : StatsData) : StatsData :=
  countChanges
    (fetchLastChange (store (storeList d0 (leafAggPairs us)) "languages" (SVal.int 1))
      env.lastChange)
    env

/-- `calculate_basic` of a leaf: `_calculate_basic` plus the
`stats_timestamp` store. -/
def leafCalculate (us : List TUnit) (env : LeafEnv) (d0 : StatsData) (now : Int) : StatsData :=
  store (leafCalculateBasic us env d0) "stats_timestamp" (SVal.int now)

/-- The record persisted by `BaseStats.update_stats` on a leaf: `clear()`
empties the local copy; in lazy mode the empty record is saved, otherwise
`calculate_basic` runs on the cleared record and the result is saved. -/
def leafUpdateStatsPersist (lazy : Bool) (us : List TUnit) (env : LeafEnv) (now : Int) : StatsData :=
  if lazy then [] else leafCalculate us env [] now

/-- Modelled from the spec: `translation_percent` of `weblate.trans.util`
(not under the provided source): 100 when the denominator is 0 and
`zero_complete` holds, 0 when the denominator is 0 otherwise, else
`numerator/denominator*100`, unclamped. -/
def translation_percent (translated : Int) (total : Int) (zeroComplete : Bool) : Rat :=
  if total = 0 then (if zeroComplete then 100 else 0)
  else (translated : Rat) / (total : Rat) * 100

/-- `BaseStats.calculate_percent(item)`; `get` resolves the attribute
reads on the record. -/
def calculate_percent (hasReview : Bool) (get : String → Int) (item : String) : Rat :=
  let base := stripPercent item
  let total : Int :=
    if strEndsWith base "_words" then get "all_words"
    else if strEndsWith base "_chars" then get "all_chars"
    else get "all"
  let completed : List String :=
    if hasReview then ["approved", "approved_words", "approved_chars"]
    else ["translated", "translated_words", "translated_chars"]
  translation_percent (get base) total (decide (base ∈ completed))

/-- Attribute-dispatch state of one stats object: which keys its local
record holds, the `_pending_save` flag, and how many times the record has
been persisted to the cache. -/
structure GNode where
  data : List String
  pending : Bool
  saves : Nat
  deriving DecidableEq, Repr

/-- The calculators a node dispatches to: the keys `calculate_basic`
populates and the keys the check/label breakdowns zero-fill. -/
structure CalcCfg where
  basicKeys : List String
  checkKeys : List String
  labelKeys : List String
  deriving DecidableEq, Repr

/-- Add freshly stored keys to the record (set-union preserving order). -/
def addKeys (data ks : List String) : List String :=
  data ++ ks.filter (fun k => !(data.contains k))

/-- Errors surfaced by the attribute dispatch. -/
inductive StatsErr where
  | unsupported : String → StatsErr
  | outOfFuel : StatsErr
  deriving DecidableEq, Repr

/-- `TranslationStats.calculate_by_name`: for a basic key run
`calculate_basic` and save; for a `check:`/`label:` key run the breakdown
calculation, which itself ends in a save. -/
def calculate_by_name (cfg : CalcCfg) (name : String) (st : GNode) : GNode :=
  let st1 :=
    if name ∈ cfg.basicKeys then
      { st with data := addKeys st.data (cfg.basicKeys ++ ["stats_timestamp"]),
                saves := st.saves + 1 }
    else st
  if strStartsWith name "check:" then
    { st1 with data := addKeys st1.data cfg.checkKeys, saves := st1.saves + 1 }
  else if strStartsWith name "label:" then
    { st1 with data := addKeys st1.data cfg.labelKeys, saves := st1.saves + 1 }
  else st1

/-- `BaseStats.__getattr__` (with the loaded record): percent keys are
derived (reading the denominator key and then the antecedent key),
`stats_timestamp` falls back to 0, present keys are returned, and a miss
sets the pending-save guard, dispatches to `calculate_by_name`, fails
with the unsupported-stat error when the name is still absent, and saves
once at the end when this miss is the outermost one. The fuel bounds the
recursion of nested reads. -/
def getattrK : Nat → CalcCfg → String → GNode → Except StatsErr GNode
  | 0, _, _, _ => Except.error StatsErr.outOfFuel
  | fuel + 1, cfg, name, st =>
    if strEndsWith name "_percent" then
      let base := stripPercent name
      let totalKey :=
        if strEndsWith base "_words" then "all_words"
        else if strEndsWith base "_chars" then "all_chars"
        else "all"
      match getattrK fuel cfg totalKey st with
      | Except.error e => Except.error e
      | Except.ok st2 => getattrK fuel cfg base st2
    else if name = "stats_timestamp" then Except.ok st
    else if name ∈ st.data then Except.ok st
    else
      let was := st.pending
      let st3 := calculate_by_name cfg name { st with pending := true }
      if name ∈ st3.data then
        if was then Except.ok st3
        else Except.ok { st3 with saves := st3.saves + 1, pending := false }
      else Except.error (StatsErr.unsupported name)

/-- The save counter of a successful attribute read. -/
def exceptSaves : Except StatsErr GNode → Option Nat
  | Except.ok st => some st.saves
  | Except.error _ => none

/-- One entry of `get_update_objects`: an ancestor stats object with its
cache key and its already-persisted `stats_timestamp`. -/
structure UpdStat where
  key : String
  ts : Int
  deriving DecidableEq, Repr

/-- One step of building `{stat.cache_key: stat for stat in ...}`: a
Python dict keeps the first position of a key and replaces its value. -/
def dedupInsert (l : List UpdStat) (s : UpdStat) : List UpdStat :=
  if l.any (fun t => t.key = s.key) then l.map (fun t => if t.key = s.key then s else t)
  else l ++ [s]

/-- The deduplicated, order-preserving dict of stats to update. -/
def dedupByKey (l : List UpdStat) : List UpdStat :=
  l.foldl dedupInsert []

/-- `BaseStats.update_parents`: deduplicate the gathered ancestors (the
`extra_objects` appended after `get_update_objects`), then update every
ancestor not skipped by the timestamp guard
`if self.stats_timestamp and self.stats_timestamp <= stat.stats_timestamp`. -/
def updateParents (selfTs : Int) (objs extras : List UpdStat) : List UpdStat :=
  (dedupByKey (objs ++ extras)).filter
    (fun s => !(decide (selfTs ≠ 0) && decide (selfTs ≤ s.ts)))

/-- First-occurrence deduplication of a key list (the order a Python dict
comprehension produces). -/
def firstDedup : List String → List String
  | [] => []
  | k :: rest => k :: (firstDedup rest).filter (fun j => decide (j ≠ k))

/-- Count of units satisfying a predicate, as an integer. -/
def countWhere (us : List TUnit) (p : TUnit → Bool) : Int :=
  ((us.filter p).length : Int)

/-- Sum of one resolved attribute over a list of children. -/
def sumVals (cs : List ChildStats) (k : String) : Int :=
  (cs.map (fun c => c.vals k)).sum

/-- The contribution of `calculate_source` for one child to one key. -/
def srcContribution (mode : SourceMode) (k : String) (c : ChildStats) : Int :=
  match mode with
  | SourceMode.genericSum =>
      if k = "source_chars" then c.vals "all_chars"
      else if k = "source_words" then c.vals "all_words"
      else if k = "source_strings" then c.vals "all"
      else 0
  | SourceMode.parentAgg =>
      if k = "source_chars" ∨ k = "source_words" ∨ k = "source_strings" then c.vals k else 0
  | SourceMode.componentNoop => 0

/-- Total `calculate_source` contribution over a child list. -/
def srcContributionSum (mode : SourceMode) (k : String) (cs : List ChildStats) : Int :=
  (cs.map (srcContribution mode k)).sum

/-- Concrete child used to exercise the aggregation: all resolved stats
zero, persisted `stats_timestamp` 10. -/
def c1Child : ChildStats :=
  { vals := fun _ => 0, lastChanged := none, lastAuthor := none, statsTimestamp := 10 }

/-- Concrete child for witnesses: every resolved stat 2, changed at 5 by
author 11. -/
def c1wA : ChildStats :=
  { vals := fun _ => 2, lastChanged := some 5, lastAuthor := some 11, statsTimestamp := 0 }

/-- Concrete child for witnesses: every resolved stat 3, changed at 4 by
author 12. -/
def c1wB : ChildStats :=
  { vals := fun _ => 3, lastChanged := some 4, lastAuthor := some 12, statsTimestamp := 0 }

/-- Concrete child reporting one language, used to contrast distinct
counts with sums. -/
def c6child : ChildStats :=
  { vals := fun _ => 1, lastChanged := none, lastAuthor := none, statsTimestamp := 0 }

theorem dictGet_dictSet (d : StatsData) (k : String) (v : SVal) (j : String) :
    dictGet (dictSet d k v) j = if k = j then some v else dictGet d j := by
  induction d with
  | nil =>
      by_cases h : k = j <;> simp [dictSet, dictGet, h]
  | cons p rest ih =>
      obtain ⟨pk, pv⟩ := p
      by_cases h1 : pk = k
      · subst h1
        by_cases h2 : pk = j <;> simp [dictSet, dictGet, h2]
      · by_cases h2 : pk = j
        · subst h2
          have : ¬ k = pk := fun h => h1 h.symm
          simp [dictSet, dictGet, h1, this]
        · simp [dictSet, dictGet, h1, h2, ih]

theorem dictGet_store (d : StatsData) (k : String) (v : SVal) (j : String) :
    dictGet (store d k v) j = if k = j then some (storeVal k v) else dictGet d j := by
  simp [store, dictGet_dictSet]

theorem dictGet_store_ne (d : StatsData) (k : String) (v : SVal) (j : String) (h : k ≠ j) :
    dictGet (store d k v) j = dictGet d j := by
  simp [dictGet_store, h]

theorem dictGet_storeList (kvs : List (String × SVal)) (d : StatsData) (j : String) :
    dictGet (storeList d kvs) j =
      match lookupLast kvs j with
      | some v => some (storeVal j v)
      | none => dictGet d j := by
  induction kvs generalizing d with
  | nil => simp [storeList, lookupLast]
  | cons p rest ih =>
      obtain ⟨pk, pv⟩ := p
      have hfold : storeList d ((pk, pv) :: rest) = storeList (store d pk pv) rest := by
        simp [storeList]
      rw [hfold, ih]
      cases hlook : lookupLast rest j with
      | some w => simp [lookupLast, hlook]
      | none =>
          by_cases h : pk = j
          · subst h
            simp [lookupLast, hlook, dictGet_store]
          · simp [lookupLast, hlook, h, dictGet_store_ne d pk pv j h]

theorem lookupLast_cons (pk : String) (pv : SVal) (rest : List (String × SVal)) (j : String) :
    lookupLast ((pk, pv) :: rest) j =
      match lookupLast rest j with
      | some w => some w
      | none => if pk = j then some pv else none := rfl

theorem lookupLast_append (l1 l2 : List (String × SVal)) (j : String) :
    lookupLast (l1 ++ l2) j =
      match lookupLast l2 j with
      | some w => some w
      | none => lookupLast l1 j := by
  induction l1 with
  | nil =>
      cases h : lookupLast l2 j <;> simp [h, lookupLast]
  | cons p rest ih =>
      obtain ⟨pk, pv⟩ := p
      rw [List.cons_append, lookupLast_cons, ih, lookupLast_cons]
      cases h : lookupLast l2 j <;> cases h2 : lookupLast rest j <;> simp

theorem lookupLast_map (keys : List String) (f : String → SVal) (j : String) :
    lookupLast (keys.map (fun k => (k, f k))) j =
      if j ∈ keys then some (f j) else none := by
  induction keys with
  | nil => simp [lookupLast]
  | cons k rest ih =>
      simp only [List.map_cons, lookupLast, ih]
      by_cases hmem : j ∈ rest
      · simp [hmem]
      · by_cases hkj : k = j
        · subst hkj
          simp [hmem]
        · have hne : ¬ j ∈ (k :: rest) := by
            intro hm
            rcases List.mem_cons.mp hm with h | h
            · exact hkj h.symm
            · exact hmem h
          simp [hmem, hkj, hne]

theorem storeVal_int (key : String) (n : Int) : storeVal key (SVal.int n) = SVal.int n := by
  simp [storeVal]

theorem storeVal_last (key : String) (v : SVal) (h : strStartsWith key "last_" = true) :
    storeVal key v = v := by
  simp [storeVal, h]

theorem nodup_BASIC_KEYS : BASIC_KEYS.Nodup := by decide

theorem nodup_SOURCE_KEYS : SOURCE_KEYS.Nodup := by decide

theorem aggregate_nums (acc : AggAcc) (item : String) (c : ChildStats) (k : String)
    (h1 : k ≠ "stats_timestamp") (h2 : k ≠ "last_changed") (h3 : k ≠ "last_author") :
    (aggregate acc item c).nums k = acc.nums k + (if item = k then c.vals k else 0) := by
  by_cases hts : item = "stats_timestamp"
  · subst hts
    have hk : ("stats_timestamp" : String) ≠ k := fun h => h1 h.symm
    simp [aggregate, hk]
  · by_cases hlc : item = "last_changed"
    · subst hlc
      have hk : ("last_changed" : String) ≠ k := fun h => h2 h.symm
      cases hc : c.lastChanged with
      | none => simp [aggregate, hc, hk]
      | some t =>
          cases ha : acc.lastChanged with
          | none => simp [aggregate, hc, ha, hk]
          | some l =>
              by_cases hlt : l < t <;> simp [aggregate, hc, ha, hlt, hk]
    · by_cases hla : item = "last_author"
      · subst hla
        have hk : ("last_author" : String) ≠ k := fun h => h3 h.symm
        simp [aggregate, hk]
      · simp only [aggregate, if_neg hts, if_neg hlc, if_neg hla]
        by_cases hk : item = k
        · subst hk; simp [updF]
        · have hk2 : ¬ k = item := fun h => hk h.symm
          simp [updF, hk, hk2]

theorem aggregate_lastPair_ne (acc : AggAcc) (item : String) (c : ChildStats)
    (h : item ≠ "last_changed") :
    (aggregate acc item c).lastChanged = acc.lastChanged ∧
      (aggregate acc item c).lastAuthor = acc.lastAuthor := by
  by_cases hts : item = "stats_timestamp"
  · subst hts; simp [aggregate]
  · by_cases hla : item = "last_author"
    · subst hla; simp [aggregate]
    · simp [aggregate, hts, h, hla]

theorem aggregate_lastPair_eq (acc : AggAcc) (c : ChildStats) :
    ((aggregate acc "last_changed" c).lastChanged, (aggregate acc "last_changed" c).lastAuthor)
      = mergeLast (acc.lastChanged, acc.lastAuthor) c := by
  cases hc : c.lastChanged with
  | none => simp [aggregate, mergeLast, hc]
  | some t =>
      cases ha : acc.lastChanged with
      | none => simp [aggregate, mergeLast, hc, ha]
      | some l =>
          by_cases hlt : l < t <;> simp [aggregate, mergeLast, hc, ha, hlt]

theorem foldAgg_nums (c : ChildStats) (items : List String) (acc : AggAcc) (k : String)
    (h1 : k ≠ "stats_timestamp") (h2 : k ≠ "last_changed") (h3 : k ≠ "last_author") :
    (items.foldl (fun a i => aggregate a i c) acc).nums k
      = acc.nums k + (items.count k : Int) * c.vals k := by
  induction items generalizing acc with
  | nil => simp
  | cons i rest ih =>
      simp only [List.foldl_cons]
      rw [ih (aggregate acc i c), aggregate_nums acc i c k h1 h2 h3, List.count_cons]
      by_cases hik : i = k
      · subst hik
        simp only [beq_self_eq_true, if_true, if_pos rfl]
        push_cast
        ring
      · have hik2 : ¬ (i == k) = true := by
          simp [hik]
        simp only [if_neg hik, if_neg hik2]
        push_cast
        ring

theorem mergeLast_idem (p : Option Int × Option Int) (c : ChildStats) :
    mergeLast (mergeLast p c) c = mergeLast p c := by
  obtain ⟨p1, p2⟩ := p
  cases hc : c.lastChanged with
  | none => simp [mergeLast, hc]
  | some t =>
      cases hp : p1 with
      | none => simp [mergeLast, hc, hp, lt_irrefl]
      | some l =>
          by_cases hlt : l < t
          · simp [mergeLast, hc, hp, hlt, lt_irrefl]
          · simp [mergeLast, hc, hp, hlt]

theorem foldAgg_lastPair (c : ChildStats) (items : List String) (acc : AggAcc) :
    ((items.foldl (fun a i => aggregate a i c) acc).lastChanged,
        (items.foldl (fun a i => aggregate a i c) acc).lastAuthor)
      = if "last_changed" ∈ items then mergeLast (acc.lastChanged, acc.lastAuthor) c
        else (acc.lastChanged, acc.lastAuthor) := by
  induction items generalizing acc with
  | nil => simp
  | cons i rest ih =>
      simp only [List.foldl_cons]
      rw [ih (aggregate acc i c)]
      by_cases hi : i = "last_changed"
      · subst hi
        have hpair := aggregate_lastPair_eq acc c
        by_cases hmem : "last_changed" ∈ rest
        · simp only [hmem, if_pos, List.mem_cons, true_or, if_true]
          rw [hpair, mergeLast_idem]
        · simp only [hmem, if_neg, if_false, List.mem_cons, or_false]
          rw [hpair]
          simp
      · have hpair := aggregate_lastPair_ne acc i c hi
        rw [hpair.1, hpair.2]
        have hne : ¬ ("last_changed" = i) := fun h => hi h.symm
        have hiff : ("last_changed" ∈ i :: rest) ↔ ("last_changed" ∈ rest) := by
          simp [List.mem_cons, hne]
        by_cases hmem : "last_changed" ∈ rest <;> simp [hmem, hiff]

theorem calcSource_nums (mode : SourceMode) (acc : AggAcc) (c : ChildStats) (k : String)
    (h1 : k ≠ "stats_timestamp") (h2 : k ≠ "last_changed") (h3 : k ≠ "last_author") :
    (calcSource mode acc c).nums k = acc.nums k + srcContribution mode k c := by
  cases mode with
  | genericSum =>
      by_cases hc : k = "source_chars"
      · subst hc; simp [calcSource, srcContribution, updF]
      · by_cases hw : k = "source_words"
        · subst hw; simp [calcSource, srcContribution, updF]
        · by_cases hs : k = "source_strings"
          · subst hs; simp [calcSource, srcContribution, updF]
          · have hc2 : ¬ k = "source_chars" := hc
            simp [calcSource, srcContribution, updF, hc, hw, hs]
  | parentAgg =>
      rw [show calcSource SourceMode.parentAgg acc c
            = aggregate (aggregate (aggregate acc "source_chars" c) "source_words" c)
                "source_strings" c from rfl]
      rw [aggregate_nums _ "source_strings" c k h1 h2 h3,
          aggregate_nums _ "source_words" c k h1 h2 h3,
          aggregate_nums _ "source_chars" c k h1 h2 h3]
      by_cases hc : k = "source_chars"
      · subst hc; simp [srcContribution]
      · by_cases hw : k = "source_words"
        · subst hw; simp [srcContribution]
        · by_cases hs : k = "source_strings"
          · subst hs; simp [srcContribution]
          · have g1 : ¬ ("source_chars" : String) = k := fun h => hc h.symm
            have g2 : ¬ ("source_words" : String) = k := fun h => hw h.symm
            have g3 : ¬ ("source_strings" : String) = k := fun h => hs h.symm
            simp [srcContribution, g1, g2, g3, hc, hw, hs]
  | componentNoop => simp [calcSource, srcContribution]

theorem calcSource_lastPair (mode : SourceMode) (acc : AggAcc) (c : ChildStats) :
    (calcSource mode acc c).lastChanged = acc.lastChanged ∧
      (calcSource mode acc c).lastAuthor = acc.lastAuthor := by
  cases mode with
  | genericSum => simp [calcSource]
  | parentAgg =>
      have ha := aggregate_lastPair_ne acc "source_chars" c (by decide)
      have hb := aggregate_lastPair_ne (aggregate acc "source_chars" c) "source_words" c (by decide)
      have hc := aggregate_lastPair_ne
        (aggregate (aggregate acc "source_chars" c) "source_words" c) "source_strings" c (by decide)
      refine ⟨?_, ?_⟩
      · rw [show calcSource SourceMode.parentAgg acc c
              = aggregate (aggregate (aggregate acc "source_chars" c) "source_words" c)
                  "source_strings" c from rfl, hc.1, hb.1, ha.1]
      · rw [show calcSource SourceMode.parentAgg acc c
              = aggregate (aggregate (aggregate acc "source_chars" c) "source_words" c)
                  "source_strings" c from rfl, hc.2, hb.2, ha.2]
  | componentNoop => simp [calcSource]

theorem aggChild_nums (mode : SourceMode) (acc : AggAcc) (c : ChildStats) (k : String)
    (h1 : k ≠ "stats_timestamp") (h2 : k ≠ "last_changed") (h3 : k ≠ "last_author") :
    (aggChild mode acc c).nums k
      = acc.nums k + (BASIC_KEYS.count k : Int) * c.vals k + srcContribution mode k c := by
  unfold aggChild
  rw [calcSource_nums mode _ c k h1 h2 h3, foldAgg_nums c BASIC_KEYS acc k h1 h2 h3]

theorem aggChild_lastPair (mode : SourceMode) (acc : AggAcc) (c : ChildStats) :
    ((aggChild mode acc c).lastChanged, (aggChild mode acc c).lastAuthor)
      = mergeLast (acc.lastChanged, acc.lastAuthor) c := by
  unfold aggChild
  have hfold := foldAgg_lastPair c BASIC_KEYS acc
  have hmem : "last_changed" ∈ BASIC_KEYS := by decide
  rw [if_pos hmem] at hfold
  have hsrc := calcSource_lastPair mode (BASIC_KEYS.foldl (fun a i => aggregate a i c) acc) c
  rw [hsrc.1, hsrc.2, hfold]

theorem aggCat_nums (acc : AggAcc) (c : ChildStats) (k : String)
    (h1 : k ≠ "stats_timestamp") (h2 : k ≠ "last_changed") (h3 : k ≠ "last_author") :
    (aggCat acc c).nums k = acc.nums k + (SOURCE_KEYS.count k : Int) * c.vals k := by
  unfold aggCat
  exact foldAgg_nums c SOURCE_KEYS acc k h1 h2 h3

theorem aggCat_lastPair (acc : AggAcc) (c : ChildStats) :
    ((aggCat acc c).lastChanged, (aggCat acc c).lastAuthor)
      = mergeLast (acc.lastChanged, acc.lastAuthor) c := by
  unfold aggCat
  have hfold := foldAgg_lastPair c SOURCE_KEYS acc
  have hmem : "last_changed" ∈ SOURCE_KEYS := by decide
  rw [if_pos hmem] at hfold
  exact hfold

theorem foldObjs_nums (mode : SourceMode) (objs : List ChildStats) (acc : AggAcc) (k : String)
    (h1 : k ≠ "stats_timestamp") (h2 : k ≠ "last_changed") (h3 : k ≠ "last_author") :
    (objs.foldl (aggChild mode) acc).nums k
      = acc.nums k + (BASIC_KEYS.count k : Int) * sumVals objs k
        + srcContributionSum mode k objs := by
  induction objs generalizing acc with
  | nil => simp [sumVals, srcContributionSum]
  | cons c rest ih =>
      simp only [List.foldl_cons]
      rw [ih (aggChild mode acc c), aggChild_nums mode acc c k h1 h2 h3]
      simp only [sumVals, srcContributionSum, List.map_cons, List.sum_cons]
      ring

theorem foldCats_nums (cats : List ChildStats) (acc : AggAcc) (k : String)
    (h1 : k ≠ "stats_timestamp") (h2 : k ≠ "last_changed") (h3 : k ≠ "last_author") :
    (cats.foldl aggCat acc).nums k
      = acc.nums k + (SOURCE_KEYS.count k : Int) * sumVals cats k := by
  induction cats generalizing acc with
  | nil => simp [sumVals]
  | cons c rest ih =>
      simp only [List.foldl_cons]
      rw [ih (aggCat acc c), aggCat_nums acc c k h1 h2 h3]
      simp only [sumVals, List.map_cons, List.sum_cons]
      ring

theorem aggStats_nums (mode : SourceMode) (objs cats : List ChildStats) (k : String)
    (h1 : k ≠ "stats_timestamp") (h2 : k ≠ "last_changed") (h3 : k ≠ "last_author") :
    (aggStats mode objs cats).nums k
      = (BASIC_KEYS.count k : Int) * sumVals objs k + srcContributionSum mode k objs
        + (SOURCE_KEYS.count k : Int) * sumVals cats k := by
  unfold aggStats
  rw [foldCats_nums cats _ k h1 h2 h3, foldObjs_nums mode objs zeroAcc k h1 h2 h3]
  simp [zeroAcc]

theorem foldObjs_lastPair (mode : SourceMode) (objs : List ChildStats) (acc : AggAcc) :
    ((objs.foldl (aggChild mode) acc).lastChanged, (objs.foldl (aggChild mode) acc).lastAuthor)
      = objs.foldl mergeLast (acc.lastChanged, acc.lastAuthor) := by
  induction objs generalizing acc with
  | nil => simp
  | cons c rest ih =>
      simp only [List.foldl_cons]
      rw [ih (aggChild mode acc c), aggChild_lastPair mode acc c]

theorem foldCats_lastPair (cats : List ChildStats) (acc : AggAcc) :
    ((cats.foldl aggCat acc).lastChanged, (cats.foldl aggCat acc).lastAuthor)
      = cats.foldl mergeLast (acc.lastChanged, acc.lastAuthor) := by
  induction cats generalizing acc with
  | nil => simp
  | cons c rest ih =>
      simp only [List.foldl_cons]
      rw [ih (aggCat acc c), aggCat_lastPair acc c]

theorem aggStats_lastPair (mode : SourceMode) (objs cats : List ChildStats) :
    ((aggStats mode objs cats).lastChanged, (aggStats mode objs cats).lastAuthor)
      = (objs ++ cats).foldl mergeLast (none, none) := by
  unfold aggStats
  rw [foldCats_lastPair cats _, foldObjs_lastPair mode objs zeroAcc, List.foldl_append]
  simp [zeroAcc]

theorem mergeLast_fst (p : Option Int × Option Int) (c : ChildStats) :
    (mergeLast p c).1 = maxStep p.1 c := by
  obtain ⟨p1, p2⟩ := p
  cases hc : c.lastChanged with
  | none => simp [mergeLast, maxStep, hc]
  | some t =>
      cases hp : p1 with
      | none => simp [mergeLast, maxStep, hc, hp]
      | some l =>
          by_cases hlt : l < t
          · have : max l t = t := by omega
            simp [mergeLast, maxStep, hc, hp, hlt, this]
          · have : max l t = l := by omega
            simp [mergeLast, maxStep, hc, hp, hlt, this]

theorem mergeFold_fst (cs : List ChildStats) (p : Option Int × Option Int) :
    (cs.foldl mergeLast p).1 = cs.foldl maxStep p.1 := by
  induction cs generalizing p with
  | nil => rfl
  | cons c rest ih =>
      simp only [List.foldl_cons]
      rw [ih (mergeLast p c), mergeLast_fst p c]

theorem mergeLast_cases (p : Option Int × Option Int) (c : ChildStats) :
    mergeLast p c = p ∨ mergeLast p c = (c.lastChanged, c.lastAuthor) := by
  obtain ⟨p1, p2⟩ := p
  cases hc : c.lastChanged with
  | none => left; simp [mergeLast, hc]
  | some t =>
      cases hp : p1 with
      | none => right; simp [mergeLast, hc]
      | some l =>
          by_cases hlt : l < t
          · right; simp [mergeLast, hc, hlt]
          · left; simp [mergeLast, hc, hlt]

theorem mergeFold_origin (cs : List ChildStats) (p : Option Int × Option Int) :
    (∃ c ∈ cs, cs.foldl mergeLast p = (c.lastChanged, c.lastAuthor))
      ∨ cs.foldl mergeLast p = p := by
  induction cs generalizing p with
  | nil => right; rfl
  | cons c rest ih =>
      simp only [List.foldl_cons]
      rcases ih (mergeLast p c) with ⟨c2, hc2, heq⟩ | heq
      · left; exact ⟨c2, List.mem_cons_of_mem c hc2, heq⟩
      · rcases mergeLast_cases p c with h | h
        · right; rw [heq, h]
        · left
          exact ⟨c, List.mem_cons_self c rest, by rw [heq, h]⟩

theorem dictGet_coreCalcBasic (mode : SourceMode) (objs cats : List ChildStats) (k : String)
    (hk : k ∈ SOURCE_KEYS) (hts : k ≠ "stats_timestamp") :
    dictGet (coreCalcBasic mode objs cats) k
      = some (storeVal k (accVal (aggStats mode objs cats) k)) := by
  unfold coreCalcBasic accKVs
  have hsingle :
      lookupLast [("stats_timestamp", SVal.int (aggStats mode objs cats).statsTimestamp)] k
        = none := by
    have hne : ¬ ("stats_timestamp" = k) := fun h => hts h.symm
    simp [lookupLast, hne]
  rw [dictGet_storeList, lookupLast_append, hsingle, lookupLast_map]
  simp [hk]

theorem srcContribution_zero (mode : SourceMode) (c : ChildStats) (k : String)
    (h1 : k ≠ "source_chars") (h2 : k ≠ "source_words") (h3 : k ≠ "source_strings") :
    srcContribution mode k c = 0 := by
  cases mode <;> simp [srcContribution, h1, h2, h3]

theorem srcContributionSum_zero (mode : SourceMode) (cs : List ChildStats) (k : String)
    (h1 : k ≠ "source_chars") (h2 : k ≠ "source_words") (h3 : k ≠ "source_strings") :
    srcContributionSum mode k cs = 0 := by
  unfold srcContributionSum
  apply List.sum_eq_zero
  intro x hx
  rcases List.mem_map.mp hx with ⟨c, _, hc⟩
  rw [← hc]
  exact srcContribution_zero mode c k h1 h2 h3

theorem sumVals_append (a b : List ChildStats) (k : String) :
    sumVals (a ++ b) k = sumVals a k + sumVals b k := by
  simp [sumVals]

theorem mem_SOURCE_of_mem_BASIC (k : String) (hk : k ∈ BASIC_KEYS) : k ∈ SOURCE_KEYS := by
  unfold SOURCE_KEYS
  exact List.mem_append_left _ hk

theorem accVal_plain (acc : AggAcc) (k : String)
    (h2 : k ≠ "last_changed") (h3 : k ≠ "last_author") :
    accVal acc k = SVal.int (acc.nums k) := by
  simp [accVal, h2, h3]

theorem accVal_lastChanged (acc : AggAcc) :
    accVal acc "last_changed" = optInt acc.lastChanged := by
  cases h : acc.lastChanged <;> simp [accVal, optInt, h]

theorem accVal_lastAuthor (acc : AggAcc) :
    accVal acc "last_author" = optInt acc.lastAuthor := by
  cases h : acc.lastAuthor <;> simp [accVal, optInt, h]

/-- C1 counterexample: with one child whose persisted `stats_timestamp` is
10 and an own computation time of 5, the recomputed record stores
`stats_timestamp = 5`, not the maximum 10: children's timestamps are never
incorporated, because `stats_timestamp` is not among the aggregated keys. -/
theorem c1_timestamp_not_max :
    dictGet (aggCalculate SourceMode.genericSum [c1Child] [] 5) "stats_timestamp"
        = some (SVal.int 5)
      ∧ SVal.int 5 ≠ SVal.int (max 5 c1Child.statsTimestamp) := by
  constructor
  · decide
  · decide

/-- C1 (amended): after `AggregatingStats._calculate_basic` plus the
timestamp store, every `BASIC_KEYS` key except `languages`,
`last_changed` and `last_author` equals the sum of the same key over the
children of `object_set` and `category_set`; `last_changed` is the most
recent child `last_changed` and `last_author` comes from a child attaining
it; and `stats_timestamp` is the node's own computation time (children's
timestamps are not incorporated). -/
theorem c1_aggregate_basic (mode : SourceMode) (objs cats : List ChildStats) (now : Int) :
    (∀ k, k ∈ BASIC_KEYS → k ≠ "languages" → k ≠ "last_changed" → k ≠ "last_author" →
        dictGet (aggCalculate mode objs cats now) k
          = some (SVal.int (sumVals (objs ++ cats) k)))
    ∧ dictGet (aggCalculate mode objs cats now) "last_changed"
        = some (optInt (maxLast (objs ++ cats)))
    ∧ (∀ t, maxLast (objs ++ cats) = some t →
        ∃ c ∈ objs ++ cats, c.lastChanged = some t ∧
          dictGet (aggCalculate mode objs cats now) "last_author"
            = some (optInt c.lastAuthor))
    ∧ dictGet (aggCalculate mode objs cats now) "stats_timestamp" = some (SVal.int now) := by
  have htsBasic : ("stats_timestamp" : String) ∉ BASIC_KEYS := by decide
  have hpair := aggStats_lastPair mode objs cats
  have hfst : (aggStats mode objs cats).lastChanged
      = ((objs ++ cats).foldl mergeLast (none, none)).1 := congrArg Prod.fst hpair
  have hsnd : (aggStats mode objs cats).lastAuthor
      = ((objs ++ cats).foldl mergeLast (none, none)).2 := congrArg Prod.snd hpair
  have hmaxeq : ((objs ++ cats).foldl mergeLast (none, none)).1 = maxLast (objs ++ cats) := by
    rw [mergeFold_fst]
    rfl
  have hlcGet : dictGet (aggCalculate mode objs cats now) "last_changed"
      = some (optInt (maxLast (objs ++ cats))) := by
    unfold aggCalculate
    rw [dictGet_store_ne _ _ _ _ (by decide)]
    rw [dictGet_coreCalcBasic mode objs cats "last_changed" (by decide) (by decide)]
    rw [accVal_lastChanged, storeVal_last _ _ (by decide), hfst, hmaxeq]
  refine ⟨?_, hlcGet, ?_, ?_⟩
  · intro k hk hkl hk2 hk3
    have hk1 : k ≠ "stats_timestamp" := fun h => htsBasic (h ▸ hk)
    have hsc : k ≠ "source_chars" := by
      have : ("source_chars" : String) ∉ BASIC_KEYS := by decide
      exact fun h => this (h ▸ hk)
    have hsw : k ≠ "source_words" := by
      have : ("source_words" : String) ∉ BASIC_KEYS := by decide
      exact fun h => this (h ▸ hk)
    have hss : k ≠ "source_strings" := by
      have : ("source_strings" : String) ∉ BASIC_KEYS := by decide
      exact fun h => this (h ▸ hk)
    have hcountB : BASIC_KEYS.count k = 1 := List.count_eq_one_of_mem nodup_BASIC_KEYS hk
    have hcountS : SOURCE_KEYS.count k = 1 :=
      List.count_eq_one_of_mem nodup_SOURCE_KEYS (mem_SOURCE_of_mem_BASIC k hk)
    unfold aggCalculate
    rw [dictGet_store_ne _ _ _ _ (fun h => hk1 h.symm)]
    rw [dictGet_coreCalcBasic mode objs cats k (mem_SOURCE_of_mem_BASIC k hk) hk1]
    rw [accVal_plain _ _ hk2 hk3, storeVal_int]
    rw [aggStats_nums mode objs cats k hk1 hk2 hk3]
    rw [srcContributionSum_zero mode objs k hsc hsw hss, hcountB, hcountS,
        sumVals_append]
    push_cast
    ring_nf
  · intro t hmax
    have hr1 : ((objs ++ cats).foldl mergeLast (none, none)).1 = some t := by
      rw [hmaxeq]; exact hmax
    rcases mergeFold_origin (objs ++ cats) (none, none) with ⟨c, hc, heq⟩ | heq
    · refine ⟨c, hc, ?_, ?_⟩
      · have : (c.lastChanged, c.lastAuthor).1 = some t := by rw [← heq]; exact hr1
        exact this
      · unfold aggCalculate
        rw [dictGet_store_ne _ _ _ _ (by decide)]
        rw [dictGet_coreCalcBasic mode objs cats "last_author" (by decide) (by decide)]
        rw [accVal_lastAuthor, storeVal_last _ _ (by decide), hsnd, heq]
    · rw [heq] at hr1
      simp at hr1
  · unfold aggCalculate
    rw [dictGet_store _ _ _ _]
    simp [storeVal_int]

/-- C1 witness: the amended aggregation facts evaluated on two concrete
children. -/
theorem c1_aggregate_basic_witness :
    dictGet (aggCalculate SourceMode.genericSum [c1wA] [c1wB] 7) "all"
        = some (SVal.int (sumVals ([c1wA] ++ [c1wB]) "all"))
      ∧ dictGet (aggCalculate SourceMode.genericSum [c1wA] [c1wB] 7) "last_changed"
        = some (optInt (maxLast ([c1wA] ++ [c1wB])))
      ∧ dictGet (aggCalculate SourceMode.genericSum [c1wA] [c1wB] 7) "stats_timestamp"
        = some (SVal.int 7) := by
  have h := c1_aggregate_basic SourceMode.genericSum [c1wA] [c1wB] 7
  exact ⟨h.1 "all" (by decide) (by decide) (by decide) (by decide), h.2.1, h.2.2.2⟩

/-- C5: a Component copies `source_strings/words/chars` verbatim from its
single source translation, independent of its translation set, while
Category/ComponentList (`ParentAggregatingStats`), Project and Global
nodes sum the children's `source_*` keys across `object_set` and
`category_set`. -/
theorem c5_source_resolution (objs cats : List ChildStats) (src : ChildStats)
    (dl lw now : Int) :
    (dictGet (componentCalculate objs (some src) now) "source_strings"
        = some (SVal.int (src.vals "all"))
      ∧ dictGet (componentCalculate objs (some src) now) "source_words"
        = some (SVal.int (src.vals "all_words"))
      ∧ dictGet (componentCalculate objs (some src) now) "source_chars"
        = some (SVal.int (src.vals "all_chars")))
    ∧ (dictGet (parentAggCalculate objs cats now) "source_strings"
        = some (SVal.int (sumVals objs "source_strings" + sumVals cats "source_strings"))
      ∧ dictGet (parentAggCalculate objs cats now) "source_words"
        = some (SVal.int (sumVals objs "source_words" + sumVals cats "source_words"))
      ∧ dictGet (parentAggCalculate objs cats now) "source_chars"
        = some (SVal.int (sumVals objs "source_chars" + sumVals cats "source_chars")))
    ∧ (dictGet (projectCalculate objs cats dl now) "source_strings"
        = some (SVal.int (sumVals objs "source_strings" + sumVals cats "source_strings")))
    ∧ (dictGet (globalCalculate objs lw now) "source_strings"
        = some (SVal.int (sumVals objs "source_strings"))) := by
  have hparent : ∀ k, k = "source_strings" ∨ k = "source_words" ∨ k = "source_chars" →
      accVal (aggStats SourceMode.parentAgg objs cats) k
        = SVal.int (sumVals objs k + sumVals cats k) := by
    intro k hkor
    have h2 : k ≠ "last_changed" := by rcases hkor with h | h | h <;> subst h <;> decide
    have h3 : k ≠ "last_author" := by rcases hkor with h | h | h <;> subst h <;> decide
    have h1 : k ≠ "stats_timestamp" := by rcases hkor with h | h | h <;> subst h <;> decide
    rw [accVal_plain _ _ h2 h3, aggStats_nums SourceMode.parentAgg objs cats k h1 h2 h3]
    have hcB : BASIC_KEYS.count k = 0 := by
      rcases hkor with h | h | h <;> subst h <;> decide
    have hcS : SOURCE_KEYS.count k = 1 := by
      rcases hkor with h | h | h <;> subst h <;> decide
    have hsum : srcContributionSum SourceMode.parentAgg k objs = sumVals objs k := by
      unfold srcContributionSum sumVals
      congr 1
      apply List.map_congr_left
      intro c _
      rcases hkor with h | h | h <;> subst h <;> simp [srcContribution]
    rw [hcB, hcS, hsum]
    push_cast
    ring_nf
  have hcore : ∀ k, k = "source_strings" ∨ k = "source_words" ∨ k = "source_chars" →
      dictGet (coreCalcBasic SourceMode.parentAgg objs cats) k
        = some (SVal.int (sumVals objs k + sumVals cats k)) := by
    intro k hkor
    have hmem : k ∈ SOURCE_KEYS := by rcases hkor with h | h | h <;> subst h <;> decide
    have hts : k ≠ "stats_timestamp" := by rcases hkor with h | h | h <;> subst h <;> decide
    rw [dictGet_coreCalcBasic SourceMode.parentAgg objs cats k hmem hts, hparent k hkor]
    rw [storeVal_int]
  refine ⟨⟨?_, ?_, ?_⟩, ⟨?_, ?_, ?_⟩, ?_, ?_⟩
  · unfold componentCalculate prefetchSource
    rw [dictGet_store_ne _ _ _ _ (by decide), dictGet_store, if_pos rfl, storeVal_int]
  · unfold componentCalculate prefetchSource
    rw [dictGet_store_ne _ _ _ _ (by decide), dictGet_store_ne _ _ _ _ (by decide),
        dictGet_store, if_pos rfl, storeVal_int]
  · unfold componentCalculate prefetchSource
    rw [dictGet_store_ne _ _ _ _ (by decide), dictGet_store_ne _ _ _ _ (by decide),
        dictGet_store_ne _ _ _ _ (by decide), dictGet_store, if_pos rfl, storeVal_int]
  · unfold parentAggCalculate aggCalculate
    rw [dictGet_store_ne _ _ _ _ (by decide)]
    exact hcore "source_strings" (Or.inl rfl)
  · unfold parentAggCalculate aggCalculate
    rw [dictGet_store_ne _ _ _ _ (by decide)]
    exact hcore "source_words" (Or.inr (Or.inl rfl))
  · unfold parentAggCalculate aggCalculate
    rw [dictGet_store_ne _ _ _ _ (by decide)]
    exact hcore "source_chars" (Or.inr (Or.inr rfl))
  · unfold projectCalculate
    rw [dictGet_store_ne _ _ _ _ (by decide), dictGet_store_ne _ _ _ _ (by decide)]
    exact hcore "source_strings" (Or.inl rfl)
  · unfold globalCalculate
    rw [dictGet_store_ne _ _ _ _ (by decide), dictGet_store_ne _ _ _ _ (by decide)]
    rw [dictGet_coreCalcBasic SourceMode.parentAgg objs [] "source_strings" (by decide) (by decide)]
    rw [accVal_plain _ _ (by decide) (by decide), storeVal_int]
    rw [aggStats_nums SourceMode.parentAgg objs [] "source_strings" (by decide) (by decide) (by decide)]
    have hsum : srcContributionSum SourceMode.parentAgg "source_strings" objs
        = sumVals objs "source_strings" := by
      unfold srcContributionSum sumVals
      refine congrArg List.sum (List.map_congr_left ?_)
      intro c _
      simp [srcContribution]
    have hcB : BASIC_KEYS.count "source_strings" = 0 := by decide
    have hcS : SOURCE_KEYS.count "source_strings" = 1 := by decide
    rw [hsum, hcB, hcS]
    simp [sumVals]

/-- C6: after recomputation a Project node and the Global node store the
distinct language count for `languages` (overwriting the generic
aggregation), never the sum of the children's `languages` values: with
two children sharing one language the result is the distinct count 1, not
the sum 2. -/
theorem c6_languages_distinct (objs cats gobjs : List ChildStats) (dl lw now now2 : Int) :
    dictGet (projectCalculate objs cats dl now) "languages" = some (SVal.int dl)
      ∧ dictGet (globalCalculate gobjs lw now2) "languages" = some (SVal.int lw)
      ∧ dictGet (projectCalculate [c6child, c6child] [] 1 0) "languages" = some (SVal.int 1)
      ∧ sumVals [c6child, c6child] "languages" = 2 := by
  refine ⟨?_, ?_, ?_, ?_⟩
  · unfold projectCalculate
    rw [dictGet_store_ne _ _ _ _ (by decide), dictGet_store, if_pos rfl, storeVal_int]
  · unfold globalCalculate
    rw [dictGet_store_ne _ _ _ _ (by decide), dictGet_store, if_pos rfl, storeVal_int]
  · decide
  · decide

theorem sum_map_one (l : List TUnit) : (l.map (fun _ => (1 : Int))).sum = (l.length : Int) := by
  induction l with
  | nil => simp
  | cons a t ih =>
      simp only [List.map_cons, List.sum_cons, List.length_cons, ih]
      push_cast
      ring

theorem dictGet_fetchLastChange (d : StatsData) (lc : Option (Int × Int)) (k : String)
    (h1 : k ≠ "last_changed") (h2 : k ≠ "last_author") :
    dictGet (fetchLastChange d lc) k = dictGet d k := by
  cases lc with
  | none =>
      unfold fetchLastChange
      rw [dictGet_store_ne _ _ _ _ (fun h => h2 h.symm),
          dictGet_store_ne _ _ _ _ (fun h => h1 h.symm)]
  | some ta =>
      unfold fetchLastChange
      rw [dictGet_store_ne _ _ _ _ (fun h => h2 h.symm),
          dictGet_store_ne _ _ _ _ (fun h => h1 h.symm)]

theorem dictGet_countChanges (d : StatsData) (env : LeafEnv) (k : String)
    (h1 : k ≠ "recent_changes") (h2 : k ≠ "monthly_changes") (h3 : k ≠ "total_changes") :
    dictGet (countChanges d env) k = dictGet d k := by
  unfold countChanges
  split <;>
    rw [dictGet_store_ne _ _ _ _ (fun h => h3 h.symm),
        dictGet_store_ne _ _ _ _ (fun h => h2 h.symm),
        dictGet_store_ne _ _ _ _ (fun h => h1 h.symm)]

theorem storeVal_condCount (key : String) (hkey : strStartsWith key "last_" = false)
    (us : List TUnit) (p : TUnit → Bool) :
    storeVal key (optInt (condSum us (fun _ => (1 : Int)) p)) = SVal.int (countWhere us p) := by
  cases us with
  | nil => simp [condSum, optInt, storeVal, hkey, countWhere]
  | cons u rest =>
      show storeVal key (optInt (some ((((u :: rest).filter p).map (fun _ => (1 : Int))).sum)))
        = SVal.int (countWhere (u :: rest) p)
      rw [show optInt (some ((((u :: rest).filter p).map (fun _ => (1 : Int))).sum))
            = SVal.int ((((u :: rest).filter p).map (fun _ => (1 : Int))).sum) from rfl]
      rw [storeVal_int, sum_map_one]
      rfl

theorem dictGet_leafBasic (us : List TUnit) (env : LeafEnv) (k : String)
    (h1 : k ≠ "languages") (h2 : k ≠ "last_changed") (h3 : k ≠ "last_author")
    (h4 : k ≠ "recent_changes") (h5 : k ≠ "monthly_changes") (h6 : k ≠ "total_changes") :
    dictGet (leafCalculateBasic us env []) k
      = dictGet (storeList [] (leafAggPairs us)) k := by
  unfold leafCalculateBasic
  rw [dictGet_countChanges _ _ _ h4 h5 h6,
      dictGet_fetchLastChange _ _ _ h2 h3,
      dictGet_store_ne _ _ _ _ (fun h => h1 h.symm)]

/-- C7 counterexample: a single unit whose state is `STATE_READONLY` is
counted in `readonly` and in `translated` but can never be counted in
`fuzzy`, `nottranslated` or `todo`: being readonly is itself a state above
approved in the severity order, not an independent flag that may co-occur
with any state. -/
theorem c7_readonly_is_state :
    dictGet (leafCalculateBasic [⟨100, 1, 1, 0, 0, 0, 0, true⟩] ⟨none, 0, 0, 0⟩ []) "readonly"
        = some (SVal.int 1)
      ∧ dictGet (leafCalculateBasic [⟨100, 1, 1, 0, 0, 0, 0, true⟩] ⟨none, 0, 0, 0⟩ []) "translated"
        = some (SVal.int 1)
      ∧ dictGet (leafCalculateBasic [⟨100, 1, 1, 0, 0, 0, 0, true⟩] ⟨none, 0, 0, 0⟩ []) "fuzzy"
        = some (SVal.int 0)
      ∧ dictGet (leafCalculateBasic [⟨100, 1, 1, 0, 0, 0, 0, true⟩] ⟨none, 0, 0, 0⟩ []) "todo"
        = some (SVal.int 0)
      ∧ dictGet (leafCalculateBasic [⟨100, 1, 1, 0, 0, 0, 0, true⟩] ⟨none, 0, 0, 0⟩ []) "nottranslated"
        = some (SVal.int 0)
      ∧ (⟨100, 1, 1, 0, 0, 0, 0, true⟩ : TUnit).state = STATE_READONLY := by
  decide

/-- C7 (amended): the leaf computation counts `todo` as exactly the items
with state below translated, `nottranslated` as exactly state empty,
`unapproved` as exactly state translated, `fuzzy` as exactly state fuzzy,
`translated` as state at least translated, and `readonly` as exactly the
items whose state equals `STATE_READONLY` - a fifth state value above
approved in the ordering `empty < fuzzy < translated < approved <
readonly`, not an independent flag. -/
theorem c7_leaf_partitions (us : List TUnit) (env : LeafEnv) :
    dictGet (leafCalculateBasic us env []) "todo"
        = some (SVal.int (countWhere us (fun u => decide (u.state < STATE_TRANSLATED))))
      ∧ dictGet (leafCalculateBasic us env []) "nottranslated"
        = some (SVal.int (countWhere us (fun u => decide (u.state = STATE_EMPTY))))
      ∧ dictGet (leafCalculateBasic us env []) "unapproved"
        = some (SVal.int (countWhere us (fun u => decide (u.state = STATE_TRANSLATED))))
      ∧ dictGet (leafCalculateBasic us env []) "readonly"
        = some (SVal.int (countWhere us (fun u => decide (u.state = STATE_READONLY))))
      ∧ dictGet (leafCalculateBasic us env []) "translated"
        = some (SVal.int (countWhere us (fun u => decide (STATE_TRANSLATED ≤ u.state))))
      ∧ dictGet (leafCalculateBasic us env []) "fuzzy"
        = some (SVal.int (countWhere us (fun u => decide (u.state = STATE_FUZZY))))
      ∧ STATE_EMPTY < STATE_FUZZY ∧ STATE_FUZZY < STATE_TRANSLATED
      ∧ STATE_TRANSLATED < STATE_APPROVED ∧ STATE_APPROVED < STATE_READONLY := by
  refine ⟨?_, ?_, ?_, ?_, ?_, ?_, by decide, by decide, by decide, by decide⟩
  · rw [dictGet_leafBasic us env "todo" (by decide) (by decide) (by decide) (by decide)
        (by decide) (by decide)]
    rw [show dictGet (storeList [] (leafAggPairs us)) "todo"
          = some (storeVal "todo" (optInt (condSum us (fun _ => (1 : Int))
              (fun u => decide (u.state < STATE_TRANSLATED))))) by
        rw [dictGet_storeList]
        rfl]
    rw [storeVal_condCount _ (by decide)]
  · rw [dictGet_leafBasic us env "nottranslated" (by decide) (by decide) (by decide)
        (by decide) (by decide) (by decide)]
    rw [show dictGet (storeList [] (leafAggPairs us)) "nottranslated"
          = some (storeVal "nottranslated" (optInt (condSum us (fun _ => (1 : Int))
              (fun u => decide (u.state = STATE_EMPTY))))) by
        rw [dictGet_storeList]
        rfl]
    rw [storeVal_condCount _ (by decide)]
  · rw [dictGet_leafBasic us env "unapproved" (by decide) (by decide) (by decide)
        (by decide) (by decide) (by decide)]
    rw [show dictGet (storeList [] (leafAggPairs us)) "unapproved"
          = some (storeVal "unapproved" (optInt (condSum us (fun _ => (1 : Int))
              (fun u => decide (u.state = STATE_TRANSLATED))))) by
        rw [dictGet_storeList]
        rfl]
    rw [storeVal_condCount _ (by decide)]
  · rw [dictGet_leafBasic us env "readonly" (by decide) (by decide) (by decide)
        (by decide) (by decide) (by decide)]
    rw [show dictGet (storeList [] (leafAggPairs us)) "readonly"
          = some (storeVal "readonly" (optInt (condSum us (fun _ => (1 : Int))
              (fun u => decide (u.state = STATE_READONLY))))) by
        rw [dictGet_storeList]
        rfl]
    rw [storeVal_condCount _ (by decide)]
  · rw [dictGet_leafBasic us env "translated" (by decide) (by decide) (by decide)
        (by decide) (by decide) (by decide)]
    rw [show dictGet (storeList [] (leafAggPairs us)) "translated"
          = some (storeVal "translated" (optInt (condSum us (fun _ => (1 : Int))
              (fun u => decide (STATE_TRANSLATED ≤ u.state))))) by
        rw [dictGet_storeList]
        rfl]
    rw [storeVal_condCount _ (by decide)]
  · rw [dictGet_leafBasic us env "fuzzy" (by decide) (by decide) (by decide)
        (by decide) (by decide) (by decide)]
    rw [show dictGet (storeList [] (leafAggPairs us)) "fuzzy"
          = some (storeVal "fuzzy" (optInt (condSum us (fun _ => (1 : Int))
              (fun u => decide (u.state = STATE_FUZZY))))) by
        rw [dictGet_storeList]
        rfl]
    rw [storeVal_condCount _ (by decide)]

/-- C10 counterexample: after a leaf computation over content with no
items and no change history, the non-last basic key `languages` holds 1,
not 0. -/
theorem c10_languages_not_zero :
    "languages" ∈ BASIC_KEYS
      ∧ strStartsWith "languages" "last_" = false
      ∧ dictGet (leafCalculateBasic [] ⟨none, 0, 0, 0⟩ []) "languages" = some (SVal.int 1)
      ∧ SVal.int 1 ≠ SVal.int 0 := by
  decide

/-- C10 (amended): `store(key, None)` writes 0 exactly when the key does
not start with `last_` and writes the value unchanged otherwise; hence
after a leaf computation over content with no items and no change
history, every non-last basic key except `languages` holds the integer 0,
`languages` holds 1, and `last_changed`/`last_author` hold `None`. -/
theorem c10_store_none_semantics :
    (∀ (d : StatsData) (key : String), strStartsWith key "last_" = false →
        dictGet (store d key SVal.null) key = some (SVal.int 0))
    ∧ (∀ (d : StatsData) (key : String), strStartsWith key "last_" = true →
        dictGet (store d key SVal.null) key = some SVal.null)
    ∧ (∀ (d : StatsData) (key : String) (v : SVal), v ≠ SVal.null →
        dictGet (store d key v) key = some v)
    ∧ (∀ env : LeafEnv, env.lastChange = none →
        (∀ k, k ∈ BASIC_KEYS → k ≠ "languages" → strStartsWith k "last_" = false →
            dictGet (leafCalculateBasic [] env []) k = some (SVal.int 0))
        ∧ dictGet (leafCalculateBasic [] env []) "languages" = some (SVal.int 1)
        ∧ dictGet (leafCalculateBasic [] env []) "last_changed" = some SVal.null
        ∧ dictGet (leafCalculateBasic [] env []) "last_author" = some SVal.null) := by
  refine ⟨?_, ?_, ?_, ?_⟩
  · intro d key h
    rw [dictGet_store, if_pos rfl]
    simp [storeVal, h]
  · intro d key h
    rw [dictGet_store, if_pos rfl, storeVal_last _ _ h]
  · intro d key v hv
    rw [dictGet_store, if_pos rfl]
    simp [storeVal, hv]
  · intro env henv
    obtain ⟨lc, a, b, c⟩ := env
    cases lc with
    | some p => exact absurd henv (by simp)
    | none =>
        have hrw : leafCalculateBasic [] ⟨none, a, b, c⟩ [] = leafCalculateBasic [] ⟨none, 0, 0, 0⟩ [] := rfl
        rw [hrw]
        have hball : ∀ k ∈ BASIC_KEYS, k ≠ "languages" → strStartsWith k "last_" = false →
            dictGet (leafCalculateBasic [] ⟨none, 0, 0, 0⟩ []) k = some (SVal.int 0) := by
          decide
        exact ⟨hball, by decide, by decide, by decide⟩

/-- C10 witness: the store semantics and the empty-leaf consequence at
concrete inputs. -/
theorem c10_store_none_semantics_witness :
    dictGet (store [] "all" SVal.null) "all" = some (SVal.int 0)
      ∧ dictGet (store [] "last_changed" SVal.null) "last_changed" = some SVal.null
      ∧ dictGet (leafCalculateBasic [] ⟨none, 2, 3, 4⟩ []) "translated" = some (SVal.int 0) := by
  have h := c10_store_none_semantics
  refine ⟨h.1 [] "all" (by decide), h.2.1 [] "last_changed" (by decide), ?_⟩
  exact (h.2.2.2 ⟨none, 2, 3, 4⟩ rfl).1 "translated" (by decide) (by decide) (by decide)

/-- C3 counterexample: two consecutive eager `update_stats` runs over the
same (empty) raw content at times 1 and 2 persist records that differ in
`stats_timestamp`, so they are not byte-identical. -/
theorem c3_not_byte_identical :
    leafUpdateStatsPersist false [] ⟨none, 0, 0, 0⟩ 1
        ≠ leafUpdateStatsPersist false [] ⟨none, 0, 0, 0⟩ 2
      ∧ dictGet (leafUpdateStatsPersist false [] ⟨none, 0, 0, 0⟩ 1) "stats_timestamp"
        = some (SVal.int 1)
      ∧ dictGet (leafUpdateStatsPersist false [] ⟨none, 0, 0, 0⟩ 2) "stats_timestamp"
        = some (SVal.int 2) := by
  decide

/-- C3 (amended): two consecutive `update_stats` runs with unchanged raw
content persist records that agree on every key except `stats_timestamp`
(and are fully identical in lazy mode, where the cleared empty record is
persisted); `stats_timestamp` records each run's own computation time. -/
theorem c3_idempotent_modulo_timestamp (lazy : Bool) (us : List TUnit) (env : LeafEnv)
    (t1 t2 : Int) :
    (∀ k, k ≠ "stats_timestamp" →
        dictGet (leafUpdateStatsPersist lazy us env t1) k
          = dictGet (leafUpdateStatsPersist lazy us env t2) k)
    ∧ (lazy = true →
        leafUpdateStatsPersist lazy us env t1 = leafUpdateStatsPersist lazy us env t2)
    ∧ dictGet (leafUpdateStatsPersist false us env t1) "stats_timestamp"
        = some (SVal.int t1) := by
  refine ⟨?_, ?_, ?_⟩
  · intro k hk
    cases lazy with
    | true => rfl
    | false =>
        show dictGet (leafCalculate us env [] t1) k = dictGet (leafCalculate us env [] t2) k
        unfold leafCalculate
        rw [dictGet_store_ne _ _ _ _ (fun h => hk h.symm),
            dictGet_store_ne _ _ _ _ (fun h => hk h.symm)]
  · intro h
    subst h
    rfl
  · show dictGet (leafCalculate us env [] t1) "stats_timestamp" = some (SVal.int t1)
    unfold leafCalculate
    rw [dictGet_store, if_pos rfl, storeVal_int]

/-- C3 witness: the modulo-timestamp agreement evaluated at concrete
times 3 and 4 over empty content. -/
theorem c3_idempotent_modulo_timestamp_witness :
    dictGet (leafUpdateStatsPersist false [] ⟨none, 0, 0, 0⟩ 3) "all"
        = dictGet (leafUpdateStatsPersist false [] ⟨none, 0, 0, 0⟩ 4) "all"
      ∧ dictGet (leafUpdateStatsPersist false [] ⟨none, 0, 0, 0⟩ 3) "stats_timestamp"
        = some (SVal.int 3) := by
  have h := c3_idempotent_modulo_timestamp false [] ⟨none, 0, 0, 0⟩ 3 4
  exact ⟨h.1 "all" (by decide), h.2.2⟩

theorem string_data_append (a b : String) : (a ++ b).data = a.data ++ b.data := by
  cases a
  cases b
  rfl

theorem stripPercent_append (base : String) : stripPercent (base ++ "_percent") = base := by
  unfold stripPercent
  rw [string_data_append]
  have hlen : (("_percent" : String)).data.length = 8 := rfl
  rw [List.length_append, hlen, Nat.add_sub_cancel, List.take_left]

/-- C2: `calculate_percent` strips the `_percent` suffix to the
antecedent key, selects the denominator `all_words`/`all_chars`/`all` by
the antecedent's suffix, takes `zero_complete` exactly on the approved
antecedents under a review workflow and on the translated antecedents
otherwise, and returns 100 for a zero denominator with `zero_complete`,
0 for a zero denominator without it, and the unclamped
`numerator/denominator*100` otherwise. -/
theorem c2_calculate_percent (hasReview : Bool) (get : String → Int) (base : String) :
    (calculate_percent hasReview get (base ++ "_percent")
      = translation_percent (get base)
          (if strEndsWith base "_words" = true then get "all_words"
           else if strEndsWith base "_chars" = true then get "all_chars"
           else get "all")
          (if hasReview = true
           then decide (base = "approved" ∨ base = "approved_words" ∨ base = "approved_chars")
           else decide (base = "translated" ∨ base = "translated_words" ∨ base = "translated_chars")))
    ∧ (∀ n : Int, translation_percent n 0 true = 100)
    ∧ (∀ n : Int, translation_percent n 0 false = 0)
    ∧ (∀ n d : Int, d ≠ 0 → ∀ zc : Bool,
        translation_percent n d zc = (n : Rat) / (d : Rat) * 100) := by
  refine ⟨?_, ?_, ?_, ?_⟩
  · unfold calculate_percent
    rw [stripPercent_append]
    cases hasReview <;> simp [List.mem_cons]
  · intro n
    simp [translation_percent]
  · intro n
    simp [translation_percent]
  · intro n d hd zc
    simp [translation_percent, hd]

/-- C2 witness: percent derivation at concrete inputs: antecedent
`translated` (count denominator) without review workflow, and the
division case with denominator 10 and numerator 5. -/
theorem c2_calculate_percent_witness :
    calculate_percent false (fun k => if k = "all" then 10 else if k = "translated" then 5 else 0)
        ("translated" ++ "_percent")
      = translation_percent 5 10 true
      ∧ translation_percent 5 10 true = (5 : Rat) / (10 : Rat) * 100 := by
  have h := c2_calculate_percent false
    (fun k => if k = "all" then 10 else if k = "translated" then 5 else 0) "translated"
  constructor
  · have h1 := h.1
    rw [h1]
    rfl
  · exact h.2.2.2 5 10 (by decide) true

theorem mem_addKeys (a : String) (d ks : List String) :
    a ∈ addKeys d ks ↔ a ∈ d ∨ a ∈ ks := by
  unfold addKeys
  constructor
  · intro h
    rcases List.mem_append.mp h with h | h
    · exact Or.inl h
    · exact Or.inr (List.mem_filter.mp h).1
  · intro h
    rcases h with h | h
    · exact List.mem_append.mpr (Or.inl h)
    · by_cases hd : a ∈ d
      · exact List.mem_append.mpr (Or.inl hd)
      · refine List.mem_append.mpr (Or.inr (List.mem_filter.mpr ⟨h, ?_⟩))
        simp [hd]

theorem calculate_by_name_mem (cfg : CalcCfg) (name : String) (st : GNode)
    (h4 : name ∉ cfg.basicKeys) (h5 : name ∉ cfg.checkKeys) (h6 : name ∉ cfg.labelKeys) :
    (name ∈ (calculate_by_name cfg name st).data ↔ name ∈ st.data) := by
  unfold calculate_by_name
  rw [if_neg h4]
  by_cases hc : strStartsWith name "check:" = true
  · simp [hc, mem_addKeys, h5]
  · by_cases hl : strStartsWith name "label:" = true
    · simp [hc, hl, mem_addKeys, h6]
    · simp [hc, hl]

/-- C9: reading a metric name that is not a percent key, is not the
legacy `stats_timestamp` fallback, is absent from the loaded record and
is populated by none of the node's calculators fails with the explicit
unsupported-stat error; it never returns a value. -/
theorem c9_unsupported_stat (fuel : Nat) (cfg : CalcCfg) (name : String) (st : GNode)
    (h1 : strEndsWith name "_percent" = false)
    (h2 : name ≠ "stats_timestamp")
    (h3 : name ∉ st.data)
    (h4 : name ∉ cfg.basicKeys)
    (h5 : name ∉ cfg.checkKeys)
    (h6 : name ∉ cfg.labelKeys) :
    getattrK (fuel + 1) cfg name st = Except.error (StatsErr.unsupported name) := by
  simp only [getattrK]
  rw [if_neg (by simp [h1]), if_neg h2, if_neg h3]
  rw [if_neg (fun hmem => h3
        ((calculate_by_name_mem cfg name { st with pending := true } h4 h5 h6).mp hmem))]

/-- C9 witness: reading the unknown metric name `bogus` on an empty
record with the leaf calculators fails with the unsupported-stat error. -/
theorem c9_unsupported_stat_witness :
    getattrK 1 ⟨BASIC_KEYS, [], []⟩ "bogus" ⟨[], false, 0⟩
      = Except.error (StatsErr.unsupported "bogus") := by
  exact c9_unsupported_stat 0 ⟨BASIC_KEYS, [], []⟩ "bogus" ⟨[], false, 0⟩ (by decide)
    (by decide) (by simp) (by decide) (by simp) (by simp)

/-- C4 counterexample: a percent read on a fresh record triggers a chain
of nested on-miss reads (the denominator key misses and runs
`calculate_basic`); the record is persisted twice - once by
`calculate_by_name` and once at the end of the outermost miss - not
exactly once. -/
theorem c4_two_saves_on_chain :
    exceptSaves (getattrK 4 ⟨BASIC_KEYS, [], []⟩ "translated_percent" ⟨[], false, 0⟩) = some 2
      ∧ (2 : Nat) ≠ 1 := by
  decide

/-- C4 (amended): on a miss of a basic key, the pending-save guard makes
the end-of-miss save happen only for the outermost miss (a nested miss,
with the guard already set, adds no end-of-miss save and leaves the guard
set), but `calculate_by_name` itself also persists after
`calculate_basic`; so an outermost basic-key miss persists twice and a
nested one persists once. -/
theorem c4_guarded_saves (fuel : Nat) (ck lb : List String) (name : String) (st : GNode)
    (hmem : name ∈ BASIC_KEYS) (hmiss : name ∉ st.data) :
    getattrK (fuel + 1) ⟨BASIC_KEYS, ck, lb⟩ name st
      = Except.ok ⟨addKeys st.data (BASIC_KEYS ++ ["stats_timestamp"]), st.pending,
          st.saves + (if st.pending then 1 else 2)⟩ := by
  obtain ⟨sdata, spending, ssaves⟩ := st
  have hperc : strEndsWith name "_percent" = false := by
    have hall : ∀ x ∈ BASIC_KEYS, strEndsWith x "_percent" = false := by decide
    exact hall name hmem
  have hts : name ≠ "stats_timestamp" := by
    have hno : ("stats_timestamp" : String) ∉ BASIC_KEYS := by decide
    exact fun h => hno (h ▸ hmem)
  have hchk : strStartsWith name "check:" = false := by
    have hall : ∀ x ∈ BASIC_KEYS, strStartsWith x "check:" = false := by decide
    exact hall name hmem
  have hlbl : strStartsWith name "label:" = false := by
    have hall : ∀ x ∈ BASIC_KEYS, strStartsWith x "label:" = false := by decide
    exact hall name hmem
  simp only [getattrK]
  rw [if_neg (by simp [hperc]), if_neg hts, if_neg hmiss]
  have hcbn : calculate_by_name ⟨BASIC_KEYS, ck, lb⟩ name ⟨sdata, true, ssaves⟩
      = ⟨addKeys sdata (BASIC_KEYS ++ ["stats_timestamp"]), true, ssaves + 1⟩ := by
    unfold calculate_by_name
    rw [if_pos hmem]
    simp [hchk, hlbl]
  rw [hcbn]
  have hmem3 : name ∈ addKeys sdata (BASIC_KEYS ++ ["stats_timestamp"]) := by
    rw [mem_addKeys]
    exact Or.inr (List.mem_append_left _ hmem)
  rw [if_pos hmem3]
  cases spending with
  | true => simp
  | false => simp

/-- C4 witness: an outermost basic-key miss on a fresh record persists
the record twice. -/
theorem c4_guarded_saves_witness :
    getattrK 1 ⟨BASIC_KEYS, [], []⟩ "all" ⟨[], false, 0⟩
      = Except.ok ⟨addKeys [] (BASIC_KEYS ++ ["stats_timestamp"]), false, 2⟩ := by
  have h := c4_guarded_saves 0 [] [] "all" ⟨[], false, 0⟩ (by decide) (by simp)
  exact h.trans (by rfl)

theorem keys_dedupInsert (l : List UpdStat) (s : UpdStat) :
    (dedupInsert l s).map (fun t => t.key)
      = if s.key ∈ l.map (fun t => t.key) then l.map (fun t => t.key)
        else l.map (fun t => t.key) ++ [s.key] := by
  unfold dedupInsert
  by_cases h : (l.any (fun t => decide (t.key = s.key))) = true
  · have hmem : s.key ∈ l.map (fun t => t.key) := by
      rcases List.any_eq_true.mp h with ⟨t, ht, hdec⟩
      have hk : t.key = s.key := of_decide_eq_true hdec
      exact hk ▸ List.mem_map_of_mem _ ht
    rw [if_pos h, if_pos hmem, List.map_map]
    refine List.map_congr_left ?_
    intro t _
    by_cases ht : t.key = s.key
    · simp only [Function.comp_apply, if_pos ht]
      exact ht.symm
    · simp only [Function.comp_apply, if_neg ht]
  · have hmem : s.key ∉ l.map (fun t => t.key) := by
      intro hmem
      apply h
      rcases List.mem_map.mp hmem with ⟨t, ht, hk⟩
      exact List.any_eq_true.mpr ⟨t, ht, decide_eq_true hk⟩
    rw [if_neg h, if_neg hmem]
    simp

theorem keys_foldl_dedupInsert (l : List UpdStat) (acc : List UpdStat) :
    (l.foldl dedupInsert acc).map (fun t => t.key)
      = acc.map (fun t => t.key)
        ++ (firstDedup (l.map (fun t => t.key))).filter
             (fun k => !(decide (k ∈ acc.map (fun t => t.key)))) := by
  induction l generalizing acc with
  | nil => simp [firstDedup]
  | cons s rest ih =>
      simp only [List.foldl_cons, List.map_cons, firstDedup]
      rw [ih (dedupInsert acc s), keys_dedupInsert acc s]
      by_cases hmem : s.key ∈ acc.map (fun t => t.key)
      · rw [if_pos hmem]
        congr 1
        rw [List.filter_cons]
        have hpk : (!(decide (s.key ∈ acc.map (fun t => t.key)))) = false := by
          simp [hmem]
        have hnotpk : ¬ ((!(decide (s.key ∈ acc.map (fun t => t.key)))) = true) := by
          rw [hpk]
          simp
        rw [if_neg hnotpk, List.filter_filter]
        refine List.filter_congr ?_
        intro j _
        by_cases hj : j ∈ acc.map (fun t => t.key)
        · simp [hj]
        · have hjs : j ≠ s.key := fun h => hj (h ▸ hmem)
          simp [hj, hjs]
      · rw [if_neg hmem, List.filter_cons]
        have hpk : (!(decide (s.key ∈ acc.map (fun t => t.key)))) = true := by
          simp [hmem]
        rw [if_pos hpk, List.append_assoc, List.singleton_append]
        congr 1
        rw [List.filter_filter]
        congr 1
        refine List.filter_congr ?_
        intro j _
        by_cases hj : j ∈ acc.map (fun t => t.key)
        · simp [List.mem_append, hj]
        · by_cases hjs : j = s.key
          · simp [List.mem_append, hj, hjs]
          · simp [List.mem_append, hj, hjs]

theorem nodup_firstDedup (ks : List String) : (firstDedup ks).Nodup := by
  induction ks with
  | nil => simp [firstDedup]
  | cons k rest ih =>
      simp only [firstDedup]
      refine List.nodup_cons.mpr ⟨?_, List.Nodup.filter _ ih⟩
      intro hmem
      have hne := (List.mem_filter.mp hmem).2
      simp at hne

/-- C8 counterexample: with a triggering leaf whose `stats_timestamp` is
0 (legacy records without a timestamp), an ancestor whose persisted
timestamp 0 is at least as fresh is still recomputed: the guard
`if self.stats_timestamp and ...` skips nothing when the leaf timestamp
is falsy. -/
theorem c8_zero_timestamp_updates :
    updateParents 0 [⟨"a", 0⟩] [] = [⟨"a", 0⟩] ∧ (0 : Int) ≤ (0 : Int) := by
  decide

/-- C8 (amended): `update_parents` deduplicates the gathered ancestors by
cache key keeping the first occurrence of each key in order (closest
ancestors first), and, when the triggering leaf's `stats_timestamp` is
nonzero, recomputes exactly the ancestors whose persisted timestamp is
strictly older than the leaf's (a deduplicated ancestor is updated if and
only if its timestamp is strictly older); when the leaf's timestamp is
zero every deduplicated ancestor is recomputed. -/
theorem c8_update_parents (selfTs : Int) (objs extras : List UpdStat) :
    ((dedupByKey (objs ++ extras)).map (fun t => t.key)
        = firstDedup ((objs ++ extras).map (fun t => t.key)))
    ∧ ((dedupByKey (objs ++ extras)).map (fun t => t.key)).Nodup
    ∧ (∀ s ∈ updateParents selfTs objs extras, selfTs ≠ 0 → s.ts < selfTs)
    ∧ (selfTs ≠ 0 → ∀ s : UpdStat,
        s ∈ updateParents selfTs objs extras
          ↔ (s ∈ dedupByKey (objs ++ extras) ∧ s.ts < selfTs))
    ∧ updateParents 0 objs extras = dedupByKey (objs ++ extras) := by
  have hkeys : (dedupByKey (objs ++ extras)).map (fun t => t.key)
      = firstDedup ((objs ++ extras).map (fun t => t.key)) := by
    unfold dedupByKey
    rw [keys_foldl_dedupInsert]
    simp
  refine ⟨hkeys, ?_, ?_, ?_, ?_⟩
  · rw [hkeys]
    exact nodup_firstDedup _
  · intro s hs hne
    unfold updateParents at hs
    have hcond := (List.mem_filter.mp hs).2
    simp [hne] at hcond
    omega
  · intro hne s
    unfold updateParents
    constructor
    · intro hs
      have hmem := (List.mem_filter.mp hs).1
      have hcond := (List.mem_filter.mp hs).2
      refine ⟨hmem, ?_⟩
      simp [hne] at hcond
      omega
    · rintro ⟨hmem, hlt⟩
      refine List.mem_filter.mpr ⟨hmem, ?_⟩
      simp [hne]
      omega
  · unfold updateParents
    apply List.filter_eq_self.mpr
    intro s hs
    simp

/-- C8 witness: dedup order and both directions of the strict-freshness
filter on a concrete ancestor list with a duplicated key: the fresher
ancestor is skipped, the staler one is recomputed. -/
theorem c8_update_parents_witness :
    (dedupByKey ([⟨"a", 1⟩, ⟨"a", 9⟩, ⟨"b", 2⟩] ++ [])).map (fun t => t.key) = ["a", "b"]
      ∧ (∀ s ∈ updateParents 5 [⟨"a", 1⟩, ⟨"a", 9⟩, ⟨"b", 2⟩] [], s.ts < 5)
      ∧ (⟨"b", 2⟩ : UpdStat) ∈ updateParents 5 [⟨"a", 1⟩, ⟨"a", 9⟩, ⟨"b", 2⟩] []
      ∧ (⟨"a", 9⟩ : UpdStat) ∉ updateParents 5 [⟨"a", 1⟩, ⟨"a", 9⟩, ⟨"b", 2⟩] [] := by
  have h := c8_update_parents 5 [⟨"a", 1⟩, ⟨"a", 9⟩, ⟨"b", 2⟩] []
  refine ⟨?_, ?_, ?_, ?_⟩
  · rw [h.1]
    decide
  · intro s hs
    exact h.2.2.1 s hs (by decide)
  · exact (h.2.2.2.1 (by decide) ⟨"b", 2⟩).mpr ⟨by decide, by decide⟩
  · intro hmem
    have hlt := ((h.2.2.2.1 (by decide) ⟨"a", 9⟩).mp hmem).2
    exact absurd hlt (by decide)

end WeblateStats

